import Mathlib

/-!
# usb-reset: selection predicate and reset orchestration

A shallow embedding of `main.go`.  The process is modelled by the ordered trace of
the externally visible operations it performs (USB context calls, standard output,
log entries, device resets, sleeps, device closes) together with its exit code.

Go semantics that matter here:
* `log.Fatalf` writes its entry and then calls `os.Exit(1)`; `os.Exit` terminates the
  process at once and deferred functions do not run;
* when `main` returns normally the deferred functions run in last-in first-out order
  and the exit code is 0.
-/

set_option autoImplicit false

namespace UsbReset

/-! ## Data model -/

/-- A vendor or product identifier: `gousb.ID`, an unsigned 16-bit integer. -/
structure ID where
  val : Nat
  isLt : val < 65536
deriving DecidableEq, Repr

/-- One lowercase hexadecimal digit, for `n < 16`. -/
def hexDigit (n : Nat) : Char :=
  if n < 10 then Char.ofNat (48 + n) else Char.ofNat (87 + n)

/-- Modelled from the spec: the USB-access layer's textual form of an identifier
(`gousb.ID.String`, a library method whose code is not among the sources): four
lowercase hexadecimal digits, zero padded, e.g. `046d`. -/
def ID.String (id : ID) : String :=
  String.mk [hexDigit (id.val / 4096 % 16), hexDigit (id.val / 256 % 16),
    hexDigit (id.val / 16 % 16), hexDigit (id.val % 16)]

/-- The descriptor fields of `gousb.DeviceDesc` that `main.go` reads. -/
structure DeviceDesc where
  Bus : Int
  Address : Int
  Speed : Nat
  Vendor : ID
  Product : ID
deriving DecidableEq, Repr

/-- An opened device handle (`*gousb.Device`).  `resetErr` is what `dev.Reset()`
returns for this handle: `none` is Go's `nil`, `some e` an error with text `e`. -/
structure Device where
  Desc : DeviceDesc
  resetErr : Option String
deriving DecidableEq, Repr

/-- The package-level variables set by `flag.Parse()` (`main.go` lines 24-38).
`waitAfterReset` is a `time.Duration`, a signed count of nanoseconds. -/
structure Config where
  usbDebug : Int
  vendorStrings : List String
  deviceStrings : List String
  waitAfterReset : Int
  continueOnError : Bool
deriving DecidableEq, Repr

/-- What the program writes to standard output, one constructor per print statement. -/
inductive Stdout where
  /-- The descriptor line, `main.go` line 50. -/
  | descriptor (desc : DeviceDesc)
  /-- The `Protocol:` line, `main.go` line 51. -/
  | protocol (desc : DeviceDesc)
  /-- A `fmt.Println` of a fixed text, `main.go` lines 56 and 65. -/
  | line (text : String)
  /-- The `Resetting USB for device` line, `main.go` line 93. -/
  | resetting (dev : Device)
  /-- The `at Address` line, `main.go` line 94. -/
  | address (dev : Device)
deriving DecidableEq, Repr

/-- The externally visible operations of a run, in the order they happen. -/
inductive Event where
  /-- The call `gousb.NewContext()`, line 41. -/
  | newContext
  /-- The call `ctx.Debug(usbDebug)`, line 45. -/
  | debug (level : Int)
  /-- A write to standard output. -/
  | stdout (out : Stdout)
  /-- The call `dev.Reset()`, line 95. -/
  | reset (dev : Device)
  /-- An entry written by `log.Printf`, line 98. -/
  | logPrintf (msg : String)
  /-- An entry written by `log.Fatalf`, lines 85 and 100; the process exits right after. -/
  | logFatalf (msg : String)
  /-- The call `time.Sleep(d)`, line 103. -/
  | sleep (d : Int)
  /-- The call `d.Close()` of the deferred loop, line 79. -/
  | close (dev : Device)
  /-- The deferred call `ctx.Close()`, line 42. -/
  | ctxClose
deriving DecidableEq, Repr

/-- How a block of statements ends: it falls through, or the process has exited. -/
inductive Flow where
  | returned
  | exited (code : Nat)
deriving DecidableEq, Repr

/-- The outcome of a whole run. -/
structure Result where
  trace : List Event
  exitCode : Nat
deriving DecidableEq, Repr

/-- What `ctx.OpenDevices` hands back to `main`: the output printed by the predicate
while it ran, the opened handles and the error value. -/
structure OpenResult where
  printed : List Stdout
  devs : List Device
  err : Option String
deriving DecidableEq, Repr

/-- The attached hardware as the USB-access layer sees it. -/
structure Bus where
  listErr : Option String
  attached : List Device
deriving DecidableEq, Repr

/-! ## The match predicate (`main.go` lines 48-74) -/

/-- The two `for ... range` loops of the predicate: scan the list in order and stop
at the first entry equal to `target`. -/
def rangeMatch (target : String) : List String → Bool
  | [] => false
  | entry :: rest => if target == entry then true else rangeMatch target rest

/-- The composite identifier `currentDevice` of line 62. -/
def currentDevice (desc : DeviceDesc) : String :=
  desc.Vendor.String ++ ":" ++ desc.Product.String

/-- The function literal passed to `ctx.OpenDevices`: the lines it prints and the
boolean it returns. -/
def matchPredicate (vendorStrings deviceStrings : List String) (desc : DeviceDesc) :
    List Stdout × Bool :=
  let shown := [Stdout.descriptor desc, Stdout.protocol desc]
  if rangeMatch desc.Vendor.String vendorStrings then
    (shown ++ [Stdout.line "VendorID matching, it will be reset."], true)
  else if rangeMatch (currentDevice desc) deviceStrings then
    (shown ++ [Stdout.line "Device ID matching, it will be reset."], true)
  else
    (shown, false)

/-- The descriptors scanned by `OpenDevices`, in bus order. -/
def scanDevices (pred : DeviceDesc → List Stdout × Bool) : List Device → List Stdout × List Device
  | [] => ([], [])
  | dev :: rest =>
    let verdict := pred dev.Desc
    let tail := scanDevices pred rest
    (verdict.1 ++ tail.1, if verdict.2 then dev :: tail.2 else tail.2)

/-- Modelled from the spec: `enumerate(predicate)` of the USB-access layer
(`gousb.Context.OpenDevices`, a library method whose code is not among the sources):
it invokes the predicate once per discovered descriptor, opens and returns a handle
for every descriptor the predicate accepted, and returns an error if listing the
devices failed. -/
def OpenDevices (bus : Bus) (pred : DeviceDesc → List Stdout × Bool) : OpenResult :=
  match bus.listErr with
  | some e => ⟨[], [], some e⟩
  | none =>
    let scanned := scanDevices pred bus.attached
    ⟨scanned.1, scanned.2, none⟩

/-! ## The reset loop and `main` (`main.go` lines 32-105) -/

/-- The loop `for _, dev := range devs` of lines 88-104. -/
def resetLoop (continueOnError : Bool) (waitAfterReset : Int) : List Device → List Event × Flow
  | [] => ([], Flow.returned)
  | dev :: rest =>
    let attempt := [Event.stdout (Stdout.resetting dev), Event.stdout (Stdout.address dev),
      Event.reset dev]
    match dev.resetErr with
    | some err =>
      if continueOnError then
        let tail := resetLoop continueOnError waitAfterReset rest
        (attempt ++ [Event.logPrintf ("reset failed: " ++ err), Event.sleep waitAfterReset]
          ++ tail.1, tail.2)
      else
        (attempt ++ [Event.logFatalf ("reset failed: " ++ err)], Flow.exited 1)
    | none =>
      let tail := resetLoop continueOnError waitAfterReset rest
      (attempt ++ [Event.sleep waitAfterReset] ++ tail.1, tail.2)

/-- The deferred functions of `main`, run in last-in first-out order when `main`
returns: the device close loop of lines 77-81, then `ctx.Close()` of line 42. -/
def deferred (devs : List Device) : List Event :=
  devs.map Event.close ++ [Event.ctxClose]

/-- The body of `main` from line 41 on, given what `ctx.OpenDevices` returned. -/
def mainWith (cfg : Config) (opened : OpenResult) : Result :=
  let start := [Event.newContext, Event.debug cfg.usbDebug] ++ opened.printed.map Event.stdout
  match opened.err with
  | some e => ⟨start ++ [Event.logFatalf ("list: " ++ e)], 1⟩
  | none =>
    match resetLoop cfg.continueOnError cfg.waitAfterReset opened.devs with
    | (body, Flow.exited code) => ⟨start ++ body, code⟩
    | (body, Flow.returned) => ⟨start ++ body ++ deferred opened.devs, 0⟩

/-- The whole program on a given bus. -/
def main (cfg : Config) (bus : Bus) : Result :=
  mainWith cfg (OpenDevices bus (matchPredicate cfg.vendorStrings cfg.deviceStrings))

/-! ## Observations on a trace -/

/-- The devices whose `Reset` was called, in order. -/
def resets : List Event → List Device
  | [] => []
  | Event.reset dev :: rest => dev :: resets rest
  | _ :: rest => resets rest

/-- The devices whose `Close` was called, in order. -/
def closes : List Event → List Device
  | [] => []
  | Event.close dev :: rest => dev :: closes rest
  | _ :: rest => closes rest

/-- The durations passed to `time.Sleep`, in order. -/
def sleeps : List Event → List Int
  | [] => []
  | Event.sleep d :: rest => d :: sleeps rest
  | _ :: rest => sleeps rest

/-- The trace restricted to reset calls and sleeps. -/
def resetSleepView : List Event → List Event
  | [] => []
  | Event.reset dev :: rest => Event.reset dev :: resetSleepView rest
  | Event.sleep d :: rest => Event.sleep d :: resetSleepView rest
  | _ :: rest => resetSleepView rest

/-- The trace restricted to reset calls and log entries. -/
def resetLogView : List Event → List Event
  | [] => []
  | Event.reset dev :: rest => Event.reset dev :: resetLogView rest
  | Event.logPrintf msg :: rest => Event.logPrintf msg :: resetLogView rest
  | Event.logFatalf msg :: rest => Event.logFatalf msg :: resetLogView rest
  | _ :: rest => resetLogView rest

/-- What follows a reset call in the reset/sleep view: one sleep when the reset
succeeded or its failure is tolerated, nothing when the failure is fatal. -/
def waitAfter (cfg : Config) (dev : Device) : List Event :=
  if dev.resetErr.isNone || cfg.continueOnError then [Event.sleep cfg.waitAfterReset] else []

/-- What follows a reset call in the reset/log view: nothing on success, one
`reset failed` entry carrying the error on failure. -/
def logAfter (cfg : Config) (dev : Device) : List Event :=
  match dev.resetErr with
  | none => []
  | some err =>
    if cfg.continueOnError then [Event.logPrintf ("reset failed: " ++ err)]
    else [Event.logFatalf ("reset failed: " ++ err)]

/-! ## Sample data -/

def vendorLogitech : ID := ⟨0x046d, by decide⟩

def productReceiver : ID := ⟨0xc52b, by decide⟩

def productMouse : ID := ⟨0xc077, by decide⟩

def descA : DeviceDesc := ⟨1, 2, 3, vendorLogitech, productReceiver⟩

def descB : DeviceDesc := ⟨1, 3, 2, vendorLogitech, productMouse⟩

def descC : DeviceDesc := ⟨2, 1, 3, ⟨0x1d6b, by decide⟩, ⟨0x0002, by decide⟩⟩

def devA : Device := ⟨descA, none⟩

def devB : Device := ⟨descB, some "libusb: i/o error"⟩

def devC : Device := ⟨descC, none⟩

def strictCfg : Config := ⟨0, ["1d6b"], ["046d:c52b", "046d:c077"], 4000000000, false⟩

def lenientCfg : Config := ⟨0, ["1d6b"], ["046d:c52b", "046d:c077"], 4000000000, true⟩


/-! ## The match predicate -/

theorem rangeMatch_iff (target : String) (entries : List String) :
    rangeMatch target entries = true ↔ target ∈ entries := by
  induction entries with
  | nil => simp [rangeMatch]
  | cons entry rest ih =>
    by_cases h : target = entry
    · simp [rangeMatch, h]
    · simp [rangeMatch, h, ih]

theorem matchPredicate_snd (vs ds : List String) (desc : DeviceDesc) :
    (matchPredicate vs ds desc).2
      = (rangeMatch desc.Vendor.String vs || rangeMatch (currentDevice desc) ds) := by
  unfold matchPredicate
  cases rangeMatch desc.Vendor.String vs <;> cases rangeMatch (currentDevice desc) ds <;> rfl

theorem hexDigit_toNat (n : Nat) (h : n < 16) :
    (hexDigit n).toNat = if n < 10 then 48 + n else 87 + n := by
  interval_cases n <;> rfl

theorem hexDigit_inj (a b : Nat) (ha : a < 16) (hb : b < 16) (h : hexDigit a = hexDigit b) :
    a = b := by
  have h1 := hexDigit_toNat a ha
  have h2 := hexDigit_toNat b hb
  rw [h] at h1
  rw [h1] at h2
  split_ifs at h2 <;> omega

theorem ID.String_data (a : ID) :
    a.String.data = [hexDigit (a.val / 4096 % 16), hexDigit (a.val / 256 % 16),
      hexDigit (a.val / 16 % 16), hexDigit (a.val % 16)] := rfl

theorem ID.data_inj (a b : ID) (h : a.String.data = b.String.data) : a = b := by
  obtain ⟨x, hx⟩ := a
  obtain ⟨y, hy⟩ := b
  simp only [ID.String_data, List.cons.injEq, and_true] at h
  obtain ⟨h3, h2, h1, h0⟩ := h
  have e3 := hexDigit_inj _ _ (Nat.mod_lt _ (by decide)) (Nat.mod_lt _ (by decide)) h3
  have e2 := hexDigit_inj _ _ (Nat.mod_lt _ (by decide)) (Nat.mod_lt _ (by decide)) h2
  have e1 := hexDigit_inj _ _ (Nat.mod_lt _ (by decide)) (Nat.mod_lt _ (by decide)) h1
  have e0 := hexDigit_inj _ _ (Nat.mod_lt _ (by decide)) (Nat.mod_lt _ (by decide)) h0
  have : x = y := by omega
  subst this
  rfl

theorem currentDevice_inj (d e : DeviceDesc) (h : currentDevice d = currentDevice e) :
    d.Vendor = e.Vendor ∧ d.Product = e.Product := by
  have hd := congrArg String.data h
  simp only [currentDevice, String.data_append, ID.String_data] at hd
  simp only [List.cons_append, List.nil_append, List.cons.injEq] at hd
  obtain ⟨v3, v2, v1, v0, -, p3, p2, p1, p0, -⟩ := hd
  constructor
  · apply ID.data_inj
    simp only [ID.String_data, v3, v2, v1, v0]
  · apply ID.data_inj
    simp only [ID.String_data, p3, p2, p1, p0]

theorem scanDevices_reject (pred : DeviceDesc → List Stdout × Bool)
    (hrej : ∀ D, (pred D).2 = false) (attached : List Device) :
    (scanDevices pred attached).2 = [] := by
  induction attached with
  | nil => rfl
  | cons dev rest ih => simp [scanDevices, hrej, ih]

/-! ## Observations distribute over concatenation -/

theorem resets_append (a b : List Event) : resets (a ++ b) = resets a ++ resets b := by
  induction a with
  | nil => rfl
  | cons e t ih => cases e <;> simp [resets, ih]

theorem closes_append (a b : List Event) : closes (a ++ b) = closes a ++ closes b := by
  induction a with
  | nil => rfl
  | cons e t ih => cases e <;> simp [closes, ih]

theorem sleeps_append (a b : List Event) : sleeps (a ++ b) = sleeps a ++ sleeps b := by
  induction a with
  | nil => rfl
  | cons e t ih => cases e <;> simp [sleeps, ih]

theorem resetSleepView_append (a b : List Event) :
    resetSleepView (a ++ b) = resetSleepView a ++ resetSleepView b := by
  induction a with
  | nil => rfl
  | cons e t ih => cases e <;> simp [resetSleepView, ih]

theorem resetLogView_append (a b : List Event) :
    resetLogView (a ++ b) = resetLogView a ++ resetLogView b := by
  induction a with
  | nil => rfl
  | cons e t ih => cases e <;> simp [resetLogView, ih]

theorem resets_stdout (out : List Stdout) : resets (out.map Event.stdout) = [] := by
  induction out with
  | nil => rfl
  | cons o t ih => simp [resets, ih]

theorem closes_stdout (out : List Stdout) : closes (out.map Event.stdout) = [] := by
  induction out with
  | nil => rfl
  | cons o t ih => simp [closes, ih]

theorem sleeps_stdout (out : List Stdout) : sleeps (out.map Event.stdout) = [] := by
  induction out with
  | nil => rfl
  | cons o t ih => simp [sleeps, ih]

theorem resetSleepView_stdout (out : List Stdout) :
    resetSleepView (out.map Event.stdout) = [] := by
  induction out with
  | nil => rfl
  | cons o t ih => simp [resetSleepView, ih]

theorem resetLogView_stdout (out : List Stdout) :
    resetLogView (out.map Event.stdout) = [] := by
  induction out with
  | nil => rfl
  | cons o t ih => simp [resetLogView, ih]

theorem resets_closeAll (devs : List Device) : resets (devs.map Event.close) = [] := by
  induction devs with
  | nil => rfl
  | cons d t ih => simp [resets, ih]

theorem closes_closeAll (devs : List Device) : closes (devs.map Event.close) = devs := by
  induction devs with
  | nil => rfl
  | cons d t ih => simp [closes, ih]

theorem sleeps_closeAll (devs : List Device) : sleeps (devs.map Event.close) = [] := by
  induction devs with
  | nil => rfl
  | cons d t ih => simp [sleeps, ih]

theorem resetSleepView_closeAll (devs : List Device) :
    resetSleepView (devs.map Event.close) = [] := by
  induction devs with
  | nil => rfl
  | cons d t ih => simp [resetSleepView, ih]

theorem resetLogView_closeAll (devs : List Device) :
    resetLogView (devs.map Event.close) = [] := by
  induction devs with
  | nil => rfl
  | cons d t ih => simp [resetLogView, ih]

/-! ## The reset loop -/

theorem resetLoop_ok (c : Bool) (w : Int) (dev : Device) (rest : List Device)
    (h : dev.resetErr = none) :
    resetLoop c w (dev :: rest)
      = ([Event.stdout (Stdout.resetting dev), Event.stdout (Stdout.address dev),
            Event.reset dev, Event.sleep w] ++ (resetLoop c w rest).1,
          (resetLoop c w rest).2) := by
  simp [resetLoop, h]

theorem resetLoop_tolerated (w : Int) (dev : Device) (rest : List Device) (err : String)
    (h : dev.resetErr = some err) :
    resetLoop true w (dev :: rest)
      = ([Event.stdout (Stdout.resetting dev), Event.stdout (Stdout.address dev),
            Event.reset dev, Event.logPrintf ("reset failed: " ++ err), Event.sleep w]
            ++ (resetLoop true w rest).1,
          (resetLoop true w rest).2) := by
  simp [resetLoop, h]

theorem resetLoop_fatal (w : Int) (dev : Device) (rest : List Device) (err : String)
    (h : dev.resetErr = some err) :
    resetLoop false w (dev :: rest)
      = ([Event.stdout (Stdout.resetting dev), Event.stdout (Stdout.address dev),
            Event.reset dev, Event.logFatalf ("reset failed: " ++ err)], Flow.exited 1) := by
  simp [resetLoop, h]

/-- The three ways one iteration of the loop can go. -/
theorem resetLoop_cases (c : Bool) (w : Int) (dev : Device) (rest : List Device) :
    (dev.resetErr = none ∧ resetLoop c w (dev :: rest)
      = ([Event.stdout (Stdout.resetting dev), Event.stdout (Stdout.address dev),
            Event.reset dev, Event.sleep w] ++ (resetLoop c w rest).1,
          (resetLoop c w rest).2)) ∨
    (∃ err, dev.resetErr = some err ∧ c = true ∧ resetLoop c w (dev :: rest)
      = ([Event.stdout (Stdout.resetting dev), Event.stdout (Stdout.address dev),
            Event.reset dev, Event.logPrintf ("reset failed: " ++ err), Event.sleep w]
            ++ (resetLoop c w rest).1,
          (resetLoop c w rest).2)) ∨
    (∃ err, dev.resetErr = some err ∧ c = false ∧ resetLoop c w (dev :: rest)
      = ([Event.stdout (Stdout.resetting dev), Event.stdout (Stdout.address dev),
            Event.reset dev, Event.logFatalf ("reset failed: " ++ err)], Flow.exited 1)) := by
  cases h : dev.resetErr with
  | none => exact Or.inl ⟨rfl, resetLoop_ok c w dev rest h⟩
  | some err =>
    cases c with
    | true => exact Or.inr (Or.inl ⟨err, rfl, rfl, resetLoop_tolerated w dev rest err h⟩)
    | false => exact Or.inr (Or.inr ⟨err, rfl, rfl, resetLoop_fatal w dev rest err h⟩)

theorem resetLoop_flow (c : Bool) (w : Int) (devs : List Device) :
    (resetLoop c w devs).2 = Flow.returned ∨ (resetLoop c w devs).2 = Flow.exited 1 := by
  induction devs with
  | nil => exact Or.inl rfl
  | cons dev rest ih =>
    rcases resetLoop_cases c w dev rest with ⟨-, h⟩ | ⟨err, -, -, h⟩ | ⟨err, -, -, h⟩
    · rw [h]; exact ih
    · rw [h]; exact ih
    · rw [h]; exact Or.inr rfl

theorem resetLoop_closes (c : Bool) (w : Int) (devs : List Device) :
    closes (resetLoop c w devs).1 = [] := by
  induction devs with
  | nil => rfl
  | cons dev rest ih =>
    rcases resetLoop_cases c w dev rest with ⟨-, h⟩ | ⟨err, -, -, h⟩ | ⟨err, -, -, h⟩
    · rw [h]; simpa [closes] using ih
    · rw [h]; simpa [closes] using ih
    · rw [h]; simp [closes]

theorem resetLoop_noCtxClose (c : Bool) (w : Int) (devs : List Device) :
    Event.ctxClose ∉ (resetLoop c w devs).1 := by
  induction devs with
  | nil => simp [resetLoop]
  | cons dev rest ih =>
    rcases resetLoop_cases c w dev rest with ⟨-, h⟩ | ⟨err, -, -, h⟩ | ⟨err, -, -, h⟩
    · rw [h]; simpa using ih
    · rw [h]; simpa using ih
    · rw [h]; simp

/-- When every reset succeeds or is tolerated the loop runs to its end and resets
every device. -/
theorem resetLoop_complete (c : Bool) (w : Int) (devs : List Device)
    (hok : ∀ d ∈ devs, d.resetErr = none ∨ c = true) :
    (resetLoop c w devs).2 = Flow.returned ∧ resets (resetLoop c w devs).1 = devs ∧
      sleeps (resetLoop c w devs).1 = List.replicate devs.length w := by
  induction devs with
  | nil => exact ⟨rfl, rfl, rfl⟩
  | cons dev rest ih =>
    have ih2 := ih (fun d hd => hok d (List.mem_cons_of_mem _ hd))
    rcases resetLoop_cases c w dev rest with ⟨-, h⟩ | ⟨err, -, -, h⟩ | ⟨err, he, hc, h⟩
    · rw [h]; simp [resets, sleeps, ih2, List.replicate_succ]
    · rw [h]; simp [resets, sleeps, ih2, List.replicate_succ]
    · rcases hok dev (List.mem_cons_self _ _) with h1 | h1
      · rw [he] at h1; cases h1
      · rw [hc] at h1; cases h1

/-- In strict mode the loop stops at the first failing reset. -/
theorem resetLoop_abort (w : Int) (pre post : List Device) (d : Device)
    (hpre : ∀ x ∈ pre, x.resetErr = none) (hd : d.resetErr ≠ none) :
    (resetLoop false w (pre ++ d :: post)).2 = Flow.exited 1 ∧
      resets (resetLoop false w (pre ++ d :: post)).1 = pre ++ [d] := by
  induction pre with
  | nil =>
    rcases resetLoop_cases false w d post with ⟨h0, -⟩ | ⟨err, -, hc, -⟩ | ⟨err, -, -, h⟩
    · exact absurd h0 hd
    · cases hc
    · simp only [List.nil_append]; rw [h]; simp [resets]
  | cons x rest ih =>
    have ih2 := ih (fun y hy => hpre y (List.mem_cons_of_mem _ hy))
    have hx := hpre x (List.mem_cons_self _ _)
    simp only [List.cons_append]
    rw [resetLoop_ok false w x (rest ++ d :: post) hx]
    simp [resets, ih2]

theorem resetLoop_sleepView (cfg : Config) (devs : List Device) :
    resetSleepView (resetLoop cfg.continueOnError cfg.waitAfterReset devs).1
      = (resets (resetLoop cfg.continueOnError cfg.waitAfterReset devs).1).flatMap
          (fun d => Event.reset d :: waitAfter cfg d) := by
  induction devs with
  | nil => rfl
  | cons dev rest ih =>
    rcases resetLoop_cases cfg.continueOnError cfg.waitAfterReset dev rest
      with ⟨he, h⟩ | ⟨err, he, hc, h⟩ | ⟨err, he, hc, h⟩
    · rw [h]; simp [resets, resetSleepView, waitAfter, he, ih]
    · have hw : waitAfter cfg dev = [Event.sleep cfg.waitAfterReset] := by
        simp [waitAfter, hc]
      rw [h]; simp [resets, resetSleepView, hw, ih]
    · have hw : waitAfter cfg dev = [] := by simp [waitAfter, he, hc]
      rw [h]; simp [resets, resetSleepView, hw]

theorem resetLoop_logView (cfg : Config) (devs : List Device) :
    resetLogView (resetLoop cfg.continueOnError cfg.waitAfterReset devs).1
      = (resets (resetLoop cfg.continueOnError cfg.waitAfterReset devs).1).flatMap
          (fun d => Event.reset d :: logAfter cfg d) := by
  induction devs with
  | nil => rfl
  | cons dev rest ih =>
    rcases resetLoop_cases cfg.continueOnError cfg.waitAfterReset dev rest
      with ⟨he, h⟩ | ⟨err, he, hc, h⟩ | ⟨err, he, hc, h⟩
    · rw [h]; simp [resets, resetLogView, logAfter, he, ih]
    · have hl : logAfter cfg dev = [Event.logPrintf ("reset failed: " ++ err)] := by
        simp [logAfter, he, hc]
      rw [h]; simp [resets, resetLogView, hl, ih]
    · have hl : logAfter cfg dev = [Event.logFatalf ("reset failed: " ++ err)] := by
        simp [logAfter, he, hc]
      rw [h]; simp [resets, resetLogView, hl]


/-! ## `main` after enumeration -/

theorem mainWith_listFailed (cfg : Config) (printed : List Stdout) (devs : List Device)
    (e : String) :
    mainWith cfg ⟨printed, devs, some e⟩
      = ⟨[Event.newContext, Event.debug cfg.usbDebug] ++ printed.map Event.stdout
          ++ [Event.logFatalf ("list: " ++ e)], 1⟩ := rfl

theorem mainWith_returned (cfg : Config) (printed : List Stdout) (devs : List Device)
    (h : (resetLoop cfg.continueOnError cfg.waitAfterReset devs).2 = Flow.returned) :
    mainWith cfg ⟨printed, devs, none⟩
      = ⟨[Event.newContext, Event.debug cfg.usbDebug] ++ printed.map Event.stdout
          ++ (resetLoop cfg.continueOnError cfg.waitAfterReset devs).1 ++ deferred devs, 0⟩ := by
  unfold mainWith
  rcases hr : resetLoop cfg.continueOnError cfg.waitAfterReset devs with ⟨body, flow⟩
  rw [hr] at h
  simp only at h
  subst h
  simp only [hr]

theorem mainWith_exited (cfg : Config) (printed : List Stdout) (devs : List Device)
    (code : Nat)
    (h : (resetLoop cfg.continueOnError cfg.waitAfterReset devs).2 = Flow.exited code) :
    mainWith cfg ⟨printed, devs, none⟩
      = ⟨[Event.newContext, Event.debug cfg.usbDebug] ++ printed.map Event.stdout
          ++ (resetLoop cfg.continueOnError cfg.waitAfterReset devs).1, code⟩ := by
  unfold mainWith
  rcases hr : resetLoop cfg.continueOnError cfg.waitAfterReset devs with ⟨body, flow⟩
  rw [hr] at h
  simp only at h
  subst h
  simp only [hr]

/-- Resets happen only inside the loop. -/
theorem mainWith_resets (cfg : Config) (printed : List Stdout) (devs : List Device) :
    resets (mainWith cfg ⟨printed, devs, none⟩).trace
      = resets (resetLoop cfg.continueOnError cfg.waitAfterReset devs).1 := by
  rcases resetLoop_flow cfg.continueOnError cfg.waitAfterReset devs with h | h
  · rw [mainWith_returned cfg printed devs h]
    simp [resets_append, resets_stdout, resets_closeAll, resets, deferred]
  · rw [mainWith_exited cfg printed devs 1 h]
    simp [resets_append, resets_stdout, resets]

theorem mainWith_sleepView (cfg : Config) (printed : List Stdout) (devs : List Device) :
    resetSleepView (mainWith cfg ⟨printed, devs, none⟩).trace
      = resetSleepView (resetLoop cfg.continueOnError cfg.waitAfterReset devs).1 := by
  rcases resetLoop_flow cfg.continueOnError cfg.waitAfterReset devs with h | h
  · rw [mainWith_returned cfg printed devs h]
    simp [resetSleepView_append, resetSleepView_stdout, resetSleepView_closeAll,
      resetSleepView, deferred]
  · rw [mainWith_exited cfg printed devs 1 h]
    simp [resetSleepView_append, resetSleepView_stdout, resetSleepView]

theorem mainWith_logView (cfg : Config) (printed : List Stdout) (devs : List Device) :
    resetLogView (mainWith cfg ⟨printed, devs, none⟩).trace
      = resetLogView (resetLoop cfg.continueOnError cfg.waitAfterReset devs).1 := by
  rcases resetLoop_flow cfg.continueOnError cfg.waitAfterReset devs with h | h
  · rw [mainWith_returned cfg printed devs h]
    simp [resetLogView_append, resetLogView_stdout, resetLogView_closeAll,
      resetLogView, deferred]
  · rw [mainWith_exited cfg printed devs 1 h]
    simp [resetLogView_append, resetLogView_stdout, resetLogView]

/-- A run that leaves through `log.Fatalf` in the loop performs no close at all. -/
theorem mainWith_abort_no_cleanup (cfg : Config) (printed : List Stdout) (devs : List Device)
    (h : (resetLoop cfg.continueOnError cfg.waitAfterReset devs).2 = Flow.exited 1) :
    closes (mainWith cfg ⟨printed, devs, none⟩).trace = [] ∧
      Event.ctxClose ∉ (mainWith cfg ⟨printed, devs, none⟩).trace ∧
      (mainWith cfg ⟨printed, devs, none⟩).exitCode = 1 := by
  rw [mainWith_exited cfg printed devs 1 h]
  refine ⟨?_, ?_, rfl⟩
  · simp [closes_append, closes_stdout, closes, resetLoop_closes]
  · simpa using resetLoop_noCtxClose cfg.continueOnError cfg.waitAfterReset devs

/-! ## The claims -/

/-- C1: for every descriptor and every pair of criteria lists, the match predicate
returns true exactly when the descriptor's vendor string is an element of the vendor
list or its `vendor:product` string is an element of the device list; in every other
case, an empty list included, it returns false. -/
theorem matchPredicate_accepts_iff (vendorids deviceids : List String) (D : DeviceDesc) :
    (matchPredicate vendorids deviceids D).2 = true ↔
      D.Vendor.String ∈ vendorids ∨ D.Vendor.String ++ ":" ++ D.Product.String ∈ deviceids := by
  rw [matchPredicate_snd, Bool.or_eq_true, rangeMatch_iff, rangeMatch_iff]
  rfl

/-- C2: with both criteria lists empty the match predicate rejects every descriptor,
so enumeration opens no device and the run resets none. -/
theorem empty_criteria_select_nothing (usbDebug waitAfterReset : Int) (continueOnError : Bool)
    (bus : Bus) :
    (∀ D : DeviceDesc, (matchPredicate [] [] D).2 = false) ∧
      (OpenDevices bus (matchPredicate [] [])).devs = [] ∧
      resets (main ⟨usbDebug, [], [], waitAfterReset, continueOnError⟩ bus).trace = [] := by
  have hrej : ∀ D : DeviceDesc, (matchPredicate [] [] D).2 = false := by
    intro D
    simp [matchPredicate_snd, rangeMatch]
  have hdevs : (OpenDevices bus (matchPredicate [] [])).devs = [] := by
    unfold OpenDevices
    cases bus.listErr with
    | some e => rfl
    | none => exact scanDevices_reject _ hrej _
  refine ⟨hrej, hdevs, ?_⟩
  unfold main
  rcases ho : OpenDevices bus (matchPredicate [] []) with ⟨printed, devs, err⟩
  rw [ho] at hdevs
  simp only at hdevs
  subst hdevs
  cases err with
  | some e =>
    rw [mainWith_listFailed]
    simp [resets_append, resets_stdout, resets]
  | none =>
    rw [mainWith_resets]
    rfl

/-- C3: in strict mode (continue-on-error false), when some reset fails, the resets
attempted are exactly the candidates up to and including the first failing one, in
enumeration order, nothing after it is reset, and the exit code is non-zero. -/
theorem strict_stops_at_first_failure (cfg : Config) (printed : List Stdout)
    (devs : List Device) (hstrict : cfg.continueOnError = false)
    (hfail : ∃ d ∈ devs, d.resetErr ≠ none) :
    ∃ pre d post, devs = pre ++ d :: post ∧ (∀ x ∈ pre, x.resetErr = none) ∧
      d.resetErr ≠ none ∧
      resets (mainWith cfg ⟨printed, devs, none⟩).trace = pre ++ [d] ∧
      (mainWith cfg ⟨printed, devs, none⟩).exitCode ≠ 0 := by
  have hsplit : ∃ pre d post, devs = pre ++ d :: post ∧ (∀ x ∈ pre, x.resetErr = none) ∧
      d.resetErr ≠ none := by
    clear hstrict
    induction devs with
    | nil => obtain ⟨d, hd, -⟩ := hfail; cases hd
    | cons x rest ih =>
      by_cases hx : x.resetErr = none
      · obtain ⟨d, hd, hne⟩ := hfail
        have hrest : ∃ d ∈ rest, d.resetErr ≠ none := by
          rcases List.mem_cons.mp hd with h | h
          · subst h; exact absurd hx hne
          · exact ⟨d, h, hne⟩
        obtain ⟨pre, d2, post, he, hp, hd2⟩ := ih hrest
        refine ⟨x :: pre, d2, post, by rw [he]; rfl, ?_, hd2⟩
        intro y hy
        rcases List.mem_cons.mp hy with h | h
        · subst h; exact hx
        · exact hp y h
      · exact ⟨[], x, rest, rfl, fun y hy => absurd hy (List.not_mem_nil y), hx⟩
  obtain ⟨pre, d, post, he, hp, hd⟩ := hsplit
  refine ⟨pre, d, post, he, hp, hd, ?_, ?_⟩
  · rw [mainWith_resets, hstrict, he]
    exact (resetLoop_abort cfg.waitAfterReset pre post d hp hd).2
  · have h := (resetLoop_abort cfg.waitAfterReset pre post d hp hd).1
    rw [← he, ← hstrict] at h
    rw [mainWith_exited cfg printed devs 1 h]
    exact Nat.one_ne_zero

/-- C4: in continue mode with a successful enumeration, whatever resets fail, every
candidate is reset exactly once, in enumeration order, and the exit code is 0. -/
theorem lenient_resets_every_candidate (cfg : Config) (opened : OpenResult)
    (hlenient : cfg.continueOnError = true) (henum : opened.err = none) :
    resets (mainWith cfg opened).trace = opened.devs ∧ (mainWith cfg opened).exitCode = 0 := by
  obtain ⟨printed, devs, err⟩ := opened
  simp only at henum
  subst henum
  have h := resetLoop_complete cfg.continueOnError cfg.waitAfterReset devs
    (fun _ _ => Or.inr hlenient)
  refine ⟨?_, ?_⟩
  · rw [mainWith_resets]; exact h.2.1
  · rw [mainWith_returned cfg printed devs h.1]


theorem resetLoop_returned_resets (c : Bool) (w : Int) (devs : List Device)
    (h : (resetLoop c w devs).2 = Flow.returned) : resets (resetLoop c w devs).1 = devs := by
  induction devs with
  | nil => rfl
  | cons dev rest ih =>
    rcases resetLoop_cases c w dev rest with ⟨-, h1⟩ | ⟨err, -, -, h1⟩ | ⟨err, -, -, h1⟩
    · rw [h1] at h ⊢
      simp [resets, ih h]
    · rw [h1] at h ⊢
      simp [resets, ih h]
    · rw [h1] at h
      cases h

/-- C5 (evaluation of the code): in strict mode on the candidates A, B, C with B's reset
failing, the run resets A and B, exits with code 1, and performs no device close and
no context close: `log.Fatalf` ends the process before the deferred functions run. -/
theorem strict_abort_skips_cleanup :
    resets (mainWith strictCfg ⟨[], [devA, devB, devC], none⟩).trace = [devA, devB] ∧
      closes (mainWith strictCfg ⟨[], [devA, devB, devC], none⟩).trace = [] ∧
      Event.ctxClose ∉ (mainWith strictCfg ⟨[], [devA, devB, devC], none⟩).trace ∧
      (mainWith strictCfg ⟨[], [devA, devB, devC], none⟩).exitCode = 1 :=
  ⟨by decide, mainWith_abort_no_cleanup strictCfg [] [devA, devB, devC] (by decide)⟩

/-- C6: on every run that completes (exit code 0), the close operations are exactly
the handles returned by enumeration, each once, and all of them come after every
reset of the run: the trace is a body with no close in it, in which every handle is
reset, followed by one close per handle and the context close. -/
theorem completed_run_closes_each_handle_once (cfg : Config) (opened : OpenResult)
    (hdone : (mainWith cfg opened).exitCode = 0) :
    closes (mainWith cfg opened).trace = opened.devs ∧
      (closes (mainWith cfg opened).trace).length = opened.devs.length ∧
      ∃ body, (mainWith cfg opened).trace
            = body ++ opened.devs.map Event.close ++ [Event.ctxClose] ∧
          closes body = [] ∧ resets body = opened.devs := by
  obtain ⟨printed, devs, err⟩ := opened
  cases err with
  | some e => rw [mainWith_listFailed] at hdone; cases hdone
  | none =>
    rcases resetLoop_flow cfg.continueOnError cfg.waitAfterReset devs with h | h
    · have hc : closes (mainWith cfg ⟨printed, devs, none⟩).trace = devs := by
        rw [mainWith_returned cfg printed devs h]
        simp [closes_append, closes_stdout, closes_closeAll, resetLoop_closes, closes,
          deferred]
      refine ⟨hc, by rw [hc], ?_⟩
      refine ⟨[Event.newContext, Event.debug cfg.usbDebug] ++ printed.map Event.stdout
        ++ (resetLoop cfg.continueOnError cfg.waitAfterReset devs).1, ?_, ?_, ?_⟩
      · rw [mainWith_returned cfg printed devs h]
        simp [deferred]
      · simp [closes_append, closes_stdout, resetLoop_closes, closes]
      · simp [resets_append, resets_stdout, resets, resetLoop_returned_resets _ _ _ h]
    · rw [mainWith_exited cfg printed devs 1 h] at hdone
      cases hdone

/-- C7: whenever enumeration returns an error, whatever handle list comes with it,
no reset is attempted, no device close happens and the exit code is non-zero. -/
theorem enumeration_failure_short_circuits (cfg : Config) (opened : OpenResult) (e : String)
    (herr : opened.err = some e) :
    resets (mainWith cfg opened).trace = [] ∧ closes (mainWith cfg opened).trace = [] ∧
      (mainWith cfg opened).exitCode ≠ 0 := by
  obtain ⟨printed, devs, err⟩ := opened
  simp only at herr
  subst herr
  rw [mainWith_listFailed]
  refine ⟨?_, ?_, Nat.one_ne_zero⟩
  · simp [resets_append, resets_stdout, resets]
  · simp [closes_append, closes_stdout, closes]

/-- C8: in the trace restricted to resets and sleeps, every reset that succeeded or
whose failure is tolerated is followed by exactly one sleep of `waitAfterReset`, before
the next reset and also after the last one; a fatally failing reset is followed by
none.  Hence a run in which every reset succeeds or is tolerated sleeps once per
candidate, `N` sleeps of `waitAfterReset` each, `N * waitAfterReset` in total. -/
theorem wait_follows_each_tolerated_reset (cfg : Config) (printed : List Stdout)
    (devs : List Device) :
    resetSleepView (mainWith cfg ⟨printed, devs, none⟩).trace
        = (resets (mainWith cfg ⟨printed, devs, none⟩).trace).flatMap
            (fun d => Event.reset d :: waitAfter cfg d) ∧
      ((∀ d ∈ devs, d.resetErr = none ∨ cfg.continueOnError = true) →
        sleeps (mainWith cfg ⟨printed, devs, none⟩).trace
            = List.replicate devs.length cfg.waitAfterReset ∧
          (sleeps (mainWith cfg ⟨printed, devs, none⟩).trace).sum
            = devs.length * cfg.waitAfterReset) := by
  refine ⟨?_, ?_⟩
  · rw [mainWith_sleepView, mainWith_resets]
    exact resetLoop_sleepView cfg devs
  · intro hok
    have h := resetLoop_complete cfg.continueOnError cfg.waitAfterReset devs hok
    have hs : sleeps (mainWith cfg ⟨printed, devs, none⟩).trace
        = List.replicate devs.length cfg.waitAfterReset := by
      rw [mainWith_returned cfg printed devs h.1]
      simp [sleeps_append, sleeps_stdout, sleeps_closeAll, sleeps, deferred, h.2.2]
    refine ⟨hs, ?_⟩
    rw [hs, List.sum_replicate]
    simp

/-- C9: a device-identifier criterion equal to the textual vendor identifier, a colon
and the textual product identifier of the pair `(v, p)` makes the predicate accept
every device with that pair even when the vendor list is empty, and as the only
criterion it accepts no device with another pair. -/
theorem composite_identifier_round_trip (v p : ID) (deviceids : List String)
    (hmem : v.String ++ ":" ++ p.String ∈ deviceids) :
    (∀ D : DeviceDesc, D.Vendor = v → D.Product = p →
        (matchPredicate [] deviceids D).2 = true) ∧
      (∀ D : DeviceDesc, (matchPredicate [] [v.String ++ ":" ++ p.String] D).2 = true →
        D.Vendor = v ∧ D.Product = p) := by
  constructor
  · intro D hv hp
    rw [matchPredicate_snd, Bool.or_eq_true, rangeMatch_iff, rangeMatch_iff]
    right
    rw [currentDevice, hv, hp]
    exact hmem
  · intro D hacc
    rw [matchPredicate_snd, Bool.or_eq_true, rangeMatch_iff, rangeMatch_iff] at hacc
    rcases hacc with h | h
    · cases h
    · rw [List.mem_singleton] at h
      exact currentDevice_inj D ⟨D.Bus, D.Address, D.Speed, v, p⟩ h

/-- C10: in the trace restricted to resets and log entries, a successful reset is
followed by no entry and every failing reset is followed at once by exactly one
`reset failed` entry carrying its error, before the next reset or the end of the
run, in both modes. -/
theorem every_failed_reset_is_logged (cfg : Config) (printed : List Stdout)
    (devs : List Device) :
    resetLogView (mainWith cfg ⟨printed, devs, none⟩).trace
      = (resets (mainWith cfg ⟨printed, devs, none⟩).trace).flatMap
          (fun d => Event.reset d :: logAfter cfg d) := by
  rw [mainWith_logView, mainWith_resets]
  exact resetLoop_logView cfg devs


/-! ## Concrete runs -/

/-- Strict mode on the candidates A, B, C with B failing: A and B are reset, C is not,
and the exit code is not 0. -/
theorem strict_stops_at_first_failure_witness :
    strictCfg.continueOnError = false ∧ (∃ d ∈ [devA, devB, devC], d.resetErr ≠ none) ∧
      (∃ pre d post, [devA, devB, devC] = pre ++ d :: post ∧
        (∀ x ∈ pre, x.resetErr = none) ∧ d.resetErr ≠ none ∧
        resets (mainWith strictCfg ⟨[], [devA, devB, devC], none⟩).trace = pre ++ [d] ∧
        (mainWith strictCfg ⟨[], [devA, devB, devC], none⟩).exitCode ≠ 0) ∧
      resets (mainWith strictCfg ⟨[], [devA, devB, devC], none⟩).trace = [devA, devB] :=
  ⟨rfl, ⟨devB, by decide, by decide⟩,
    strict_stops_at_first_failure strictCfg [] [devA, devB, devC] rfl
      ⟨devB, by decide, by decide⟩,
    by decide⟩

/-- Continue mode on the candidates A, B, C with B failing: all three are reset in
order and the exit code is 0. -/
theorem lenient_resets_every_candidate_witness :
    lenientCfg.continueOnError = true ∧ devB.resetErr ≠ none ∧
      resets (mainWith lenientCfg ⟨[], [devA, devB, devC], none⟩).trace
        = [devA, devB, devC] ∧
      (mainWith lenientCfg ⟨[], [devA, devB, devC], none⟩).exitCode = 0 :=
  ⟨rfl, by decide,
    lenient_resets_every_candidate lenientCfg ⟨[], [devA, devB, devC], none⟩ rfl rfl⟩

/-- Continue mode on the candidates A, B, C with B failing: the run completes and
closes A, B and C once each, after all three resets. -/
theorem completed_run_closes_each_handle_once_witness :
    (mainWith lenientCfg ⟨[], [devA, devB, devC], none⟩).exitCode = 0 ∧
      closes (mainWith lenientCfg ⟨[], [devA, devB, devC], none⟩).trace
        = [devA, devB, devC] ∧
      (closes (mainWith lenientCfg ⟨[], [devA, devB, devC], none⟩).trace).length = 3 ∧
      ∃ body, (mainWith lenientCfg ⟨[], [devA, devB, devC], none⟩).trace
            = body ++ [devA, devB, devC].map Event.close ++ [Event.ctxClose] ∧
          closes body = [] ∧ resets body = [devA, devB, devC] :=
  ⟨by decide,
    completed_run_closes_each_handle_once lenientCfg ⟨[], [devA, devB, devC], none⟩
      (by decide)⟩

/-- An enumeration error that comes with three opened handles: nothing is reset,
nothing is closed, the exit code is not 0. -/
theorem enumeration_failure_short_circuits_witness :
    resets (mainWith strictCfg ⟨[], [devA, devB, devC], some "libusb: bad access"⟩).trace = [] ∧
      closes (mainWith strictCfg ⟨[], [devA, devB, devC], some "libusb: bad access"⟩).trace
        = [] ∧
      (mainWith strictCfg ⟨[], [devA, devB, devC], some "libusb: bad access"⟩).exitCode ≠ 0 :=
  enumeration_failure_short_circuits strictCfg
    ⟨[], [devA, devB, devC], some "libusb: bad access"⟩ "libusb: bad access" rfl

/-- Continue mode on the candidates A, B, C with B failing: three sleeps of four
seconds each. -/
theorem wait_follows_each_tolerated_reset_witness :
    (∀ d ∈ [devA, devB, devC], d.resetErr = none ∨ lenientCfg.continueOnError = true) ∧
      sleeps (mainWith lenientCfg ⟨[], [devA, devB, devC], none⟩).trace
        = [4000000000, 4000000000, 4000000000] ∧
      (sleeps (mainWith lenientCfg ⟨[], [devA, devB, devC], none⟩).trace).sum
        = 3 * 4000000000 :=
  ⟨fun _ _ => Or.inr rfl,
    (wait_follows_each_tolerated_reset lenientCfg [] [devA, devB, devC]).2
      (fun _ _ => Or.inr rfl)⟩

/-- The criterion `046d:c52b` and the pair (0x046d, 0xc52b). -/
theorem composite_identifier_round_trip_witness :
    vendorLogitech.String ++ ":" ++ productReceiver.String = "046d:c52b" ∧
      "046d:c52b" ∈ ["046d:c52b"] ∧
      (∀ D : DeviceDesc, D.Vendor = vendorLogitech → D.Product = productReceiver →
        (matchPredicate [] ["046d:c52b"] D).2 = true) ∧
      (∀ D : DeviceDesc, (matchPredicate [] ["046d:c52b"] D).2 = true →
        D.Vendor = vendorLogitech ∧ D.Product = productReceiver) :=
  ⟨by decide, by decide,
    composite_identifier_round_trip vendorLogitech productReceiver ["046d:c52b"] (by decide)⟩

end UsbReset
